import Mathlib

/-!
# Hawkular time-series executor (`pkg/tsdb/hawkular/hawkular.go`)

A shallow embedding of the Hawkular data-source executor: the query model
(a loosely typed JSON tree), the request body built per query, request
construction, response parsing and the batch loop of `Execute`.

Calls into the Go standard library (`net/url`, `path`, `encoding/json`,
`net/http`, `ctxhttp`) are fields of an environment `Env`, and the general
statements hold for all environments.  Logging has no effect on results and
is left out.  A nil-pointer dereference is the outcome `panicked`.
-/

set_option autoImplicit false

namespace Hawkular

/-! ## Errors -/

/-- Go `error` values met by the executor.  An `external` error is produced by
a library call (`simplejson`, `net/url`, `encoding/json`, `net/http`,
`ioutil`); an `errorf` error is built by the executor itself through
`fmt.Errorf`. -/
inductive Error where
  | external (msg : String)
  | errorf (msg : String)
  deriving DecidableEq, Repr

/-- The text of an error, as `err.Error()` and the `%v` verb render it. -/
def Error.text : Error → String
  | .external msg => msg
  | .errorf msg => msg

/-- The result of running Go code that may dereference a nil pointer. -/
inductive Outcome (α : Type) where
  | returned (a : α)
  | panicked
  deriving DecidableEq, Repr

/-! ## The query model (`simplejson.Json`) -/

/-- The dynamic value wrapped by `simplejson.Json` (an `interface{}` holding
decoded JSON).  Objects are association lists read by first match. -/
inductive Json where
  | null
  | bool (b : Bool)
  | num (x : ℚ)
  | str (s : String)
  | arr (xs : List Json)
  | obj (kvs : List (String × Json))

/-- Lookup of a key in the fields of an object. -/
def lookupKey (key : String) : List (String × Json) → Option Json
  | [] => none
  | (k, v) :: rest => if k = key then some v else lookupKey key rest

/-- Modelled from the spec: `simplejson.Json.Get` (pkg/components/simplejson is
not among the sources), the string-keyed lookup of the query model: the value
under `key` when the receiver is an object holding it, the nil value
otherwise. -/
def Json.Get (j : Json) (key : String) : Json :=
  match j with
  | .obj kvs =>
    match lookupKey key kvs with
    | some v => v
    | none => .null
  | _ => .null

/-- Modelled from the spec: `simplejson.Json.String` (pkg/components/simplejson
is not among the sources; named `StringOrErr` here, `String` being taken): the
string held, or a type-assertion error with the
empty string. -/
def Json.StringOrErr (j : Json) : String × Option Error :=
  match j with
  | .str s => (s, none)
  | _ => ("", some (.external "type assertion to string failed"))

/-- Modelled from the spec: `simplejson.Json.MustString` without a default
argument (pkg/components/simplejson is not among the sources), the lookup with
default-valued fallback: the string held, or the empty string. -/
def Json.MustString (j : Json) : String :=
  match j.StringOrErr with
  | (s, none) => s
  | (_, some _) => ""

/-- Modelled from the spec: `simplejson.Json.MustArray` without a default
argument (pkg/components/simplejson is not among the sources): the elements
held, or no elements. -/
def Json.MustArray (j : Json) : List Json :=
  match j with
  | .arr xs => xs
  | _ => []

/-- Modelled from the spec: `simplejson.Json.MustMap` without a default
argument (pkg/components/simplejson is not among the sources): the fields
held, or no fields. -/
def Json.MustMap (j : Json) : List (String × Json) :=
  match j with
  | .obj kvs => kvs
  | _ => []

/-- Modelled from the spec: `simplejson.Json.CheckGet` (pkg/components/simplejson
is not among the sources): the value under `key` and whether it is present. -/
def Json.CheckGet (j : Json) (key : String) : Json × Bool :=
  match j with
  | .obj kvs =>
    match lookupKey key kvs with
    | some v => (v, true)
    | none => (.null, false)
  | _ => (.null, false)

/-- Modelled from the spec: `tsdb.Query` (pkg/tsdb is not among the sources),
reduced to the fields the executor reads: the caller-assigned reference id and
the query model. -/
structure Query where
  RefId : String
  Model : Json

/-! ## Request body -/

/-- Modelled from the spec: `HawkularTsdbQuery` (its declaration is not among
the sources), the remote request body: time range start and end in epoch
milliseconds, sort order, id list and tag filter string. -/
structure HawkularTsdbQuery where
  Start : Int
  End : Int
  Order : String
  Ids : List String
  Tags : String
  deriving DecidableEq, Repr

/-- The zero value of `var tsdbQuery HawkularTsdbQuery`. -/
def HawkularTsdbQuery.zero : HawkularTsdbQuery :=
  { Start := 0, End := 0, Order := "", Ids := [], Tags := "" }

/-- Modelled from the spec: `Tag` (its declaration is not among the sources):
a name and a value. -/
structure Tag where
  Name : String
  Value : String
  deriving DecidableEq, Repr

/-- Source `fetchIds`: the one-element list holding the model's target. -/
def fetchIds (query : Query) : List String :=
  let result : List String := []
  let target := (query.Model.Get "target").MustString
  result ++ [target]

/-- The body of the loop of `fetchTags` over the remaining tags, `result`
being the string accumulated so far. -/
def fetchTagsLoop : List Json → String → String × Option Error
  | [], result => (result, none)
  | tagJson :: rest, result =>
    match (tagJson.Get "name").StringOrErr with
    | (_, some err) => ("", some err)
    | (name, none) =>
      match (tagJson.Get "value").StringOrErr with
      | (_, some err) => ("", some err)
      | (value, none) =>
        let tag : Tag := { Name := name, Value := value }
        let aTag := tag.Name ++ ":" ++ tag.Value
        if result ≠ "" then
          fetchTagsLoop rest (result ++ "," ++ aTag)
        else
          fetchTagsLoop rest aTag

/-- Source `fetchTags`: the comma-joined `name:value` rendering of the model's
tags, or the empty string and an error at the first tag without a string name
or value. -/
def fetchTags (query : Query) : String × Option Error :=
  let model := query.Model
  fetchTagsLoop (model.Get "tags").MustArray ""

/-! ## Result types (`tsdb`, `null`) -/

/-- The `null.Float` of gopkg.in/guregu/null.v3: a float with a validity flag.
The executor only copies float64 values, never computes on them; they are
carried as rationals. -/
structure NullFloat where
  Float64 : ℚ
  Valid : Bool
  deriving DecidableEq, Repr

/-- The `null.FloatFrom` of gopkg.in/guregu/null.v3: a valid (non-null) float. -/
def NullFloat.FloatFrom (f : ℚ) : NullFloat :=
  { Float64 := f, Valid := true }

/-- Modelled from the spec: `tsdb.TimePoint` (pkg/tsdb is not among the
sources): a nullable-float value and a timestamp. -/
structure TimePoint where
  value : NullFloat
  timestamp : NullFloat
  deriving DecidableEq, Repr

/-- Modelled from the spec: `tsdb.NewTimePoint` (pkg/tsdb is not among the
sources): the point of a nullable value and a timestamp. -/
def NewTimePoint (value : NullFloat) (timestamp : ℚ) : TimePoint :=
  { value := value, timestamp := NullFloat.FloatFrom timestamp }

/-- Modelled from the spec: `tsdb.TimeSeries` (pkg/tsdb is not among the
sources): identifier plus an ordered list of points. -/
structure TimeSeries where
  Name : String
  Points : List TimePoint
  deriving DecidableEq, Repr

/-- Modelled from the spec: `tsdb.QueryResult` (pkg/tsdb is not among the
sources): the series of one query, with its error and reference id fields. -/
structure QueryResult where
  Error : Option Error
  RefId : String
  Series : List TimeSeries
  deriving DecidableEq, Repr

/-- Modelled from the spec: `tsdb.NewQueryResult` (pkg/tsdb is not among the
sources): a result without series. -/
def NewQueryResult : QueryResult :=
  { Error := none, RefId := "", Series := [] }

/-- A Go `map[string]*tsdb.QueryResult` as an association list with distinct
keys. -/
abbrev ResultMap := List (String × QueryResult)

/-- Assignment `m[key] = value`. -/
def ResultMap.set (m : ResultMap) (key : String) (value : QueryResult) : ResultMap :=
  (key, value) :: m.filter (fun kv => kv.1 ≠ key)

/-- Read `m[key]`, `none` when the key is absent. -/
def ResultMap.get? (m : ResultMap) (key : String) : Option QueryResult :=
  List.lookup key m

/-- Modelled from the spec: `tsdb.BatchResult` (pkg/tsdb is not among the
sources): the batch-level error and the map from reference id to query result;
`none` is the nil map. -/
structure BatchResult where
  Error : Option Error
  QueryResults : Option ResultMap
  deriving DecidableEq, Repr

/-- Modelled from the spec: `tsdb.BatchResult.WithError` (pkg/tsdb is not among
the sources): the error is surfaced as the batch-level error of the receiver,
which is returned. -/
def BatchResult.WithError (br : BatchResult) (err : Hawkular.Error) : BatchResult :=
  { br with Error := some err }

/-- Modelled from the spec: `Point` (its declaration is not among the sources):
one (timestamp, value) pair of a remote response series. -/
structure Point where
  Time : ℚ
  Value : ℚ
  deriving DecidableEq, Repr

/-- Modelled from the spec: `Series` (its declaration is not among the
sources): a remote response series, an identifier and a list of points. -/
structure Series where
  Id : String
  Points : List Point
  deriving DecidableEq, Repr

/-! ## HTTP and the environment -/

/-- The fields of `models.DataSource` the executor reads. -/
structure DataSource where
  Url : String
  BasicAuth : Bool
  BasicAuthUser : String
  BasicAuthPassword : String
  JsonData : Json

/-- Source `HawkularDBExecutor`: the embedded data source (the HTTP client and
the logger carry no state the results depend on). -/
structure HawkularDBExecutor where
  DataSource : DataSource

/-- A parsed `url.URL`: the path the executor rewrites, and the remaining
parts. -/
structure URL where
  Base : String
  Path : String
  deriving DecidableEq, Repr

/-- An outgoing `http.Request`. -/
structure Request where
  Method : String
  URL : String
  Body : String
  Header : List (String × String)
  deriving DecidableEq, Repr

/-- `req.Header.Set`. -/
def Request.HeaderSet (req : Request) (key value : String) : Request :=
  { req with Header := req.Header.filter (fun kv => kv.1 ≠ key) ++ [(key, value)] }

/-- An incoming `http.Response`; `Body` is what `ioutil.ReadAll(res.Body)`
yields: the text read, or the message of the read error. -/
structure Response where
  StatusCode : Int
  Status : String
  Body : Except String String

/-- The library calls of the executor.  A failing call yields the message of
its error, which the executor sees as an `Error.external` value.
`httpDo sent req` is the answer of `ctxhttp.Do` to `req` after the requests
`sent` have been performed. -/
structure Env where
  urlParse : String → Except String URL
  pathJoin : String → String → String
  urlString : URL → String
  jsonMarshal : HawkularTsdbQuery → Except String String
  newRequestErr : String → String → Option String
  base64 : String → String
  httpDo : List Request → Request → Except String Response
  jsonUnmarshal : String → Except String (List Series)

/-- `http.NewRequest`: a request with no headers, unless the method or the URL
is refused. -/
def Env.NewRequest (env : Env) (method url body : String) : Option Request × Option Error :=
  match env.newRequestErr method url with
  | some msg => (none, some (.external msg))
  | none => (some { Method := method, URL := url, Body := body, Header := [] }, none)

/-- `req.SetBasicAuth`. -/
def Env.SetBasicAuth (env : Env) (req : Request) (username password : String) : Request :=
  req.HeaderSet "Authorization" ("Basic " ++ env.base64 (username ++ ":" ++ password))

/-- Source `createRequest`.  The error of `url.Parse` is dropped and the nil
URL is dereferenced; the error of `json.Marshal` is overwritten by the one of
`http.NewRequest`. -/
def createRequest (env : Env) (e : HawkularDBExecutor) (data : HawkularTsdbQuery)
    (qType : String) : Outcome (Option Request × Option Error) :=
  match env.urlParse e.DataSource.Url with
  | .error _ => .panicked
  | .ok u =>
    let u := { u with Path := env.pathJoin u.Path ("/" ++ qType ++ "s/raw/query") }
    let postData : String :=
      match env.jsonMarshal data with
      | .ok bytes => bytes
      | .error _ => ""
    match env.NewRequest "POST" (env.urlString u) postData with
    | (_, some err) =>
      .returned (none, some (.errorf ("Failed to create request. error: " ++ err.text)))
    | (none, none) => .panicked
    | (some req, none) =>
      let req := req.HeaderSet "Content-Type" "application/json"
      let req := req.HeaderSet "Hawkular-Tenant" (e.DataSource.JsonData.Get "tenant").MustString
      let req :=
        if e.DataSource.BasicAuth then
          env.SetBasicAuth req e.DataSource.BasicAuthUser e.DataSource.BasicAuthPassword
        else req
      .returned (some req, none)

/-! ## Response parsing -/

/-- The inner loop of `parseResponse` over the points of one series; `err` is
the error variable of the enclosing function, tested on every point. -/
def pointsLoop (err : Option Error) : List Point → List TimePoint → Except Error (List TimePoint)
  | [], points => .ok points
  | point :: rest, points =>
    let timestamp := point.Time
    match err with
    | some e => .error e
    | none =>
      pointsLoop err rest (points ++ [NewTimePoint (NullFloat.FloatFrom point.Value) timestamp])

/-- The outer loop of `parseResponse` over the decoded series. -/
def seriesLoop (err : Option Error) : List Series → QueryResult → Except Error QueryResult
  | [], queryRes => .ok queryRes
  | val :: rest, queryRes =>
    let series : TimeSeries := { Name := val.Id, Points := [] }
    match pointsLoop err val.Points series.Points with
    | .error e => .error e
    | .ok points =>
      seriesLoop err rest
        { queryRes with Series := queryRes.Series ++ [{ series with Points := points }] }

/-- Source `parseResponse`: the pair (result map, error) it returns. -/
def parseResponse (env : Env) (_query : HawkularTsdbQuery) (res : Response) :
    Option ResultMap × Option Error :=
  let queryResults : ResultMap := []
  let queryRes := NewQueryResult
  match res.Body with
  | .error msg => (none, some (.external msg))
  | .ok body =>
    if res.StatusCode.tdiv 100 ≠ 2 then
      (none, some (.errorf ("Request failed status: " ++ res.Status)))
    else
      match env.jsonUnmarshal body with
      | .error msg => (none, some (.external msg))
      | .ok data =>
        match seriesLoop none data queryRes with
        | .error err => (none, some err)
        | .ok queryRes => (some (queryResults.set "A" queryRes), none)

/-! ## The batch loop -/

/-- Source `buildMetric`: the discriminator and the metric description, which
`Execute` only logs. -/
def buildMetric (query : Query) : Bool × List (String × Json) :=
  let metric : List (String × Json) := []
  let metric := metric ++ [("metric", .str (query.Model.Get "measurement").MustString)]
  let metric := metric ++ [("timeAggFn", .str (query.Model.Get "timeAggFn").MustString)]
  let metric := metric ++ [("name", .str (query.Model.Get "alert.name").MustString)]
  let metric := metric ++ [("query", .str (query.Model.Get "query").MustString)]
  let metric := metric ++ [("rawQuery", .str (query.Model.Get "rawQuery").MustString)]
  let metric := metric ++ [("interval", .str (query.Model.Get "interval").MustString)]
  let metric := metric ++ [("key", .str (query.Model.Get "key").MustString)]
  let metric := metric ++ [("value", .str (query.Model.Get "value").MustString)]
  let metric := metric ++ [("operator", .str (query.Model.Get "operator").MustString)]
  let (tags, tagsCheck) := query.Model.CheckGet "tags"
  let metric :=
    if tagsCheck ∧ tags.MustMap.length > 0 then
      metric ++ [("tags", .obj tags.MustMap)]
    else metric
  let isTags := decide ((query.Model.Get "queryBy").MustString = "tags")
  (isTags, metric)

/-- The request body `Execute` builds for one query. -/
def buildQuery (fromTime endTime : Int) (query : Query) : HawkularTsdbQuery :=
  let tsdbQuery := HawkularTsdbQuery.zero
  let tsdbQuery := { tsdbQuery with Start := fromTime }
  let tsdbQuery := { tsdbQuery with End := endTime }
  let tsdbQuery := { tsdbQuery with Order := "ASC" }
  let isTags := decide ((query.Model.Get "queryBy").MustString = "tags")
  if isTags then
    { tsdbQuery with Tags := (fetchTags query).1 }
  else
    { tsdbQuery with Ids := fetchIds query }

/-- What one iteration of the loop of `Execute` does: go on with the next
query, or leave the function. -/
inductive Step where
  | next (result : BatchResult) (sent : List Request)
  | stop (out : Outcome BatchResult) (sent : List Request)

/-- One iteration of the loop of `Execute` on `query`: `result` is the batch
result so far, `sent` the requests performed so far. -/
def executeQuery (env : Env) (e : HawkularDBExecutor) (fromTime endTime : Int)
    (result : BatchResult) (sent : List Request) (query : Query) : Step :=
  let tsdbQuery := buildQuery fromTime endTime query
  let (_isTags, _metric) := buildMetric query
  match createRequest env e tsdbQuery (query.Model.Get "type").MustString with
  | .panicked => .stop .panicked sent
  | .returned (_, some err) => .stop (.returned { result with Error := some err }) sent
  | .returned (none, none) => .stop .panicked sent
  | .returned (some req, none) =>
    match env.httpDo sent req with
    | .error msg =>
      .stop (.returned { result with Error := some (.external msg) }) (sent ++ [req])
    | .ok res =>
      match parseResponse env tsdbQuery res with
      | (_, some err) => .stop (.returned (result.WithError err)) (sent ++ [req])
      | (queryResult, none) => .next { result with QueryResults := queryResult } (sent ++ [req])

/-- The loop of `Execute` over the remaining queries. -/
def executeLoop (env : Env) (e : HawkularDBExecutor) (fromTime endTime : Int) :
    List Query → BatchResult → List Request → Outcome BatchResult × List Request
  | [], result, sent => (.returned result, sent)
  | query :: rest, result, sent =>
    match executeQuery env e fromTime endTime result sent query with
    | .next result sent => executeLoop env e fromTime endTime rest result sent
    | .stop out sent => (out, sent)

/-- The part of `tsdb.QueryContext` the executor reads: the time range as
epoch milliseconds (`GetFromAsMsEpoch`, `GetToAsMsEpoch`). -/
structure QueryContext where
  FromAsMsEpoch : Int
  ToAsMsEpoch : Int

/-- Source `Execute`: the batch result returned (or a panic), with the list of
the HTTP requests performed, in order. -/
def Execute (env : Env) (e : HawkularDBExecutor) (queries : List Query)
    (context : QueryContext) : Outcome BatchResult × List Request :=
  let result : BatchResult := { Error := none, QueryResults := none }
  let fromTime := context.FromAsMsEpoch
  let endTime := context.ToAsMsEpoch
  executeLoop env e fromTime endTime queries result []

/-! ## A scripted environment and sample inputs -/

/-- The body of the sample response: one series `m1` with the point
(timestamp 1000, value 2.5). -/
def sampleBody : String :=
  "[\x7b\"id\":\"m1\",\"data\":[\x7b\"timestamp\":1000,\"value\":2.5\x7d]\x7d]"

/-- An environment for worked examples.  The only URL refused is `":"`; the
body is rendered as a flat text of the id list and the tag filter; the n-th
request performed receives the n-th entry of `answers`; the decoder knows the
sample body and the empty array. -/
def scriptedEnv (answers : List (Except String Response)) : Env where
  urlParse := fun raw =>
    if raw = ":" then .error "missing protocol scheme" else .ok { Base := raw, Path := "" }
  pathJoin := fun a b => a ++ b
  urlString := fun u => u.Base ++ u.Path
  jsonMarshal := fun q => .ok ("ids=" ++ ",".intercalate q.Ids ++ ";tags=" ++ q.Tags)
  newRequestErr := fun _ _ => none
  base64 := fun text => text
  httpDo := fun sent _ => (answers.get? sent.length).getD (.error "connection refused")
  jsonUnmarshal := fun body =>
    if body = sampleBody then .ok [{ Id := "m1", Points := [{ Time := 1000, Value := 2.5 }] }]
    else if body = "[]" then .ok []
    else .error "invalid character"

/-- The scripted environment with a serializer that always fails. -/
def failingMarshalEnv (answers : List (Except String Response)) : Env :=
  { scriptedEnv answers with jsonMarshal := fun _ => .error "unsupported value" }

/-- A data source at `url` without basic auth, tenant `t1`. -/
def sampleExecutor (url : String) : HawkularDBExecutor :=
  { DataSource :=
      { Url := url, BasicAuth := false, BasicAuthUser := "", BasicAuthPassword := "",
        JsonData := .obj [("tenant", .str "t1")] } }

/-- A query selecting by id, as in the comment of `buildMetric`. -/
def idsQuery (refId target : String) : Query :=
  { RefId := refId
    Model := .obj [("queryBy", .str "ids"), ("refId", .str refId), ("tags", .arr []),
      ("target", .str target), ("type", .str "gauge")] }

/-- A query selecting by tags, as in the comment of `buildMetric`. -/
def tagsQuery (refId : String) (tags : List Json) : Query :=
  { RefId := refId
    Model := .obj [("queryBy", .str "tags"), ("refId", .str refId), ("tags", .arr tags),
      ("target", .str "select metric"), ("type", .str "gauge")] }

/-- A tag object with string name and value. -/
def tagObj (name value : String) : Json :=
  .obj [("name", .str name), ("value", .str value)]

/-- A 200 response carrying the sample body. -/
def okResponse : Response :=
  { StatusCode := 200, Status := "200 OK", Body := .ok sampleBody }

/-- A 200 response carrying the empty array. -/
def emptyResponse : Response :=
  { StatusCode := 200, Status := "200 OK", Body := .ok "[]" }

/-- A 500 response. -/
def failedResponse : Response :=
  { StatusCode := 500, Status := "500 Internal Server Error", Body := .ok "boom" }

/-- The query result of the sample body: one series `m1` with the point of
value 2.5 at timestamp 1000. -/
def sampleResult : QueryResult :=
  { Error := none
    RefId := ""
    Series :=
      [{ Name := "m1"
         Points :=
          [{ value := { Float64 := 2.5, Valid := true }
             timestamp := { Float64 := 1000, Valid := true } }] }] }

/-- The time range of the worked examples. -/
def sampleContext : QueryContext :=
  { FromAsMsEpoch := 1000, ToAsMsEpoch := 2000 }


/-! ## Lemmas on the query model -/

/-- The text `name:value` of a tag, read with the default-valued accessors. -/
def tagText (tagJson : Json) : String :=
  (tagJson.Get "name").MustString ++ ":" ++ (tagJson.Get "value").MustString

/-- A tag that is an object with a string name and a string value. -/
def WellFormedTag (tagJson : Json) : Prop :=
  (∃ name, tagJson.Get "name" = .str name) ∧ (∃ value, tagJson.Get "value" = .str value)

/-- The reading of "exactly one of the id list and the tag filter is
populated, governed by the selection mode" for the body `b` built for
`query`. -/
def ExactlyOnePopulated (query : Query) (b : HawkularTsdbQuery) : Prop :=
  if (query.Model.Get "queryBy").MustString = "tags" then b.Tags ≠ "" ∧ b.Ids = []
  else b.Ids ≠ [] ∧ b.Tags = ""

/-- The output point of a response point: its value as a valid nullable float
and its timestamp. -/
def toTimePoint (point : Point) : TimePoint :=
  { value := { Float64 := point.Value, Valid := true },
    timestamp := { Float64 := point.Time, Valid := true } }

/-- The output series of a response series: its id as name, its points in
order. -/
def toTimeSeries (val : Series) : TimeSeries :=
  { Name := val.Id, Points := val.Points.map toTimePoint }

/-- The query succeeds when run after the requests `sent`: its request `req`
is built, the transport answers it with `res`, and `res` parses to the result
map `m`. -/
def QuerySucceeds (env : Env) (e : HawkularDBExecutor) (fromTime endTime : Int)
    (sent : List Request) (query : Query) (req : Request) (res : Response)
    (m : Option ResultMap) : Prop :=
  createRequest env e (buildQuery fromTime endTime query) (query.Model.Get "type").MustString
      = .returned (some req, none) ∧
    env.httpDo sent req = .ok res ∧
    parseResponse env (buildQuery fromTime endTime query) res = (m, none)

/-- Every query of the list succeeds when the list is run in order after the
requests `sent`. -/
def AllSucceed (env : Env) (e : HawkularDBExecutor) (fromTime endTime : Int) :
    List Query → List Request → Prop
  | [], _ => True
  | query :: rest, sent =>
    ∃ req res m, QuerySucceeds env e fromTime endTime sent query req res m ∧
      AllSucceed env e fromTime endTime rest (sent ++ [req])

/-- The query fails with `err` when run after the requests `sent`: request
construction returns the error, or the transport does, or the response does
not parse (unreadable body, non-2xx status, decode failure). -/
def QueryFails (env : Env) (e : HawkularDBExecutor) (fromTime endTime : Int)
    (sent : List Request) (query : Query) (err : Error) : Prop :=
  (∃ r, createRequest env e (buildQuery fromTime endTime query)
      (query.Model.Get "type").MustString = .returned (r, some err)) ∨
  (∃ req, createRequest env e (buildQuery fromTime endTime query)
      (query.Model.Get "type").MustString = .returned (some req, none) ∧
    ((∃ msg, env.httpDo sent req = .error msg ∧ err = .external msg) ∨
     (∃ res m, env.httpDo sent req = .ok res ∧
        parseResponse env (buildQuery fromTime endTime query) res = (m, some err))))

/-- The query results of a batch result are nil or a map with the single key
"A"; the loop keeps it so. -/
def FixedKey (r : BatchResult) : Prop :=
  r.QueryResults = none ∨ ∃ queryRes, r.QueryResults = some [("A", queryRes)]

/-- The requests performed once an iteration of the loop is over. -/
def Step.sent : Step → List Request
  | .next _ sent => sent
  | .stop _ sent => sent

lemma string_ne_empty_of_length_pos {s : String} (h : 0 < s.length) : s ≠ "" := by
  intro hs
  rw [hs] at h
  exact absurd h (by decide)

lemma rendered_tag_ne_empty (name value : String) : name ++ ":" ++ value ≠ "" := by
  apply string_ne_empty_of_length_pos
  have h1 : (":" : String).length = 1 := by decide
  simp only [String.length_append, h1]
  omega

lemma joined_ne_empty (acc aTag : String) : acc ++ "," ++ aTag ≠ "" := by
  apply string_ne_empty_of_length_pos
  have h1 : ("," : String).length = 1 := by decide
  simp only [String.length_append, h1]
  omega

lemma stringOrErr_str (s : String) : (Json.str s).StringOrErr = (s, none) := rfl

lemma stringOrErr_of_not_str (j : Json) (h : ∀ s, j ≠ .str s) :
    j.StringOrErr = ("", some (.external "type assertion to string failed")) := by
  cases j <;> first | rfl | exact absurd rfl (h _)

/-- With a non-empty accumulator the loop continues the comma-joined text. -/
lemma fetchTagsLoop_go (tags : List Json) (hwf : ∀ t ∈ tags, WellFormedTag t) :
    ∀ acc : String, acc ≠ "" →
      fetchTagsLoop tags acc = (String.intercalate.go acc "," (tags.map tagText), none) := by
  induction tags with
  | nil => intro acc _; rfl
  | cons t rest ih =>
    intro acc hacc
    obtain ⟨⟨name, hn⟩, ⟨value, hv⟩⟩ := hwf t (List.mem_cons_self _ _)
    have hrest : ∀ u ∈ rest, WellFormedTag u := fun u hu => hwf u (List.mem_cons_of_mem _ hu)
    have htext : tagText t = name ++ ":" ++ value := by
      simp [tagText, hn, hv, Json.MustString, Json.StringOrErr]
    simp only [fetchTagsLoop, hn, hv, Json.StringOrErr, List.map_cons, String.intercalate.go,
      htext]
    rw [if_pos hacc]
    exact ih hrest _ (joined_ne_empty _ _)

/-- On well-formed tags the loop started empty yields the comma-joined text. -/
lemma fetchTagsLoop_wellFormed (tags : List Json) (hwf : ∀ t ∈ tags, WellFormedTag t) :
    fetchTagsLoop tags "" = (",".intercalate (tags.map tagText), none) := by
  cases tags with
  | nil => rfl
  | cons t rest =>
    obtain ⟨⟨name, hn⟩, ⟨value, hv⟩⟩ := hwf t (List.mem_cons_self _ _)
    have hrest : ∀ u ∈ rest, WellFormedTag u := fun u hu => hwf u (List.mem_cons_of_mem _ hu)
    have htext : tagText t = name ++ ":" ++ value := by
      simp [tagText, hn, hv, Json.MustString, Json.StringOrErr]
    simp only [fetchTagsLoop, hn, hv, Json.StringOrErr, List.map_cons, String.intercalate,
      htext]
    rw [if_neg (by simp)]
    exact fetchTagsLoop_go rest hrest _ (rendered_tag_ne_empty _ _)

/-- A tag that is not well formed stops the loop with an error and the empty
string, whatever was accumulated. -/
lemma fetchTagsLoop_bad (tags : List Json) (hbad : ∃ t ∈ tags, ¬ WellFormedTag t) :
    ∀ acc : String, ∃ err, fetchTagsLoop tags acc = ("", some err) := by
  induction tags with
  | nil => obtain ⟨t, ht, _⟩ := hbad; simp at ht
  | cons t rest ih =>
    intro acc
    by_cases hn : ∃ name, t.Get "name" = .str name
    · obtain ⟨name, hn⟩ := hn
      by_cases hv : ∃ value, t.Get "value" = .str value
      · obtain ⟨value, hv⟩ := hv
        have hrest : ∃ u ∈ rest, ¬ WellFormedTag u := by
          obtain ⟨u, hu, hnot⟩ := hbad
          rcases List.mem_cons.mp hu with rfl | hu
          · exact absurd ⟨⟨name, hn⟩, ⟨value, hv⟩⟩ hnot
          · exact ⟨u, hu, hnot⟩
        simp only [fetchTagsLoop, hn, hv, stringOrErr_str]
        split
        · exact ih hrest _
        · exact ih hrest _
      · have hv2 := stringOrErr_of_not_str (t.Get "value") (fun s hs => hv ⟨s, hs⟩)
        simp only [fetchTagsLoop, hv2, hn, stringOrErr_str]
        exact ⟨_, rfl⟩
    · have hn2 := stringOrErr_of_not_str (t.Get "name") (fun s hs => hn ⟨s, hs⟩)
      simp only [fetchTagsLoop, hn2]
      exact ⟨_, rfl⟩

lemma intercalate_go_length (sep : String) (l : List String) :
    ∀ acc : String, acc.length ≤ (String.intercalate.go acc sep l).length := by
  induction l with
  | nil => intro acc; simp [String.intercalate.go]
  | cons a rest ih =>
    intro acc
    have h := ih (acc ++ sep ++ a)
    simp only [String.intercalate.go]
    simp only [String.length_append] at h
    omega

lemma intercalate_ne_empty (sep a : String) (rest : List String) (ha : a ≠ "") :
    sep.intercalate (a :: rest) ≠ "" := by
  apply string_ne_empty_of_length_pos
  have h := intercalate_go_length sep rest a
  have ha2 : 0 < a.length := by
    rcases Nat.eq_zero_or_pos a.length with h0 | h0
    · exact absurd (String.ext (by simpa using List.length_eq_zero.mp h0)) ha
    · exact h0
  simp only [String.intercalate]
  omega

lemma tagText_ne_empty (t : Json) : tagText t ≠ "" :=
  rendered_tag_ne_empty _ _

lemma get_of_lookupKey_none (kvs : List (String × Json)) (key : String)
    (h : lookupKey key kvs = none) : (Json.obj kvs).Get key = .null := by
  simp [Json.Get, h]

/-- The tag filter of a well-formed tag list is non-empty exactly when the
list is. -/
lemma fetchTags_fst_ne_empty_iff (query : Query) :
    (fetchTags query).1 ≠ "" ↔
      (query.Model.Get "tags").MustArray ≠ [] ∧
        ∀ t ∈ (query.Model.Get "tags").MustArray, WellFormedTag t := by
  constructor
  · intro h
    by_cases hwf : ∀ t ∈ (query.Model.Get "tags").MustArray, WellFormedTag t
    · refine ⟨?_, hwf⟩
      intro hnil
      apply h
      simp [fetchTags, hnil, fetchTagsLoop]
    · exfalso
      apply h
      have hbad : ∃ t ∈ (query.Model.Get "tags").MustArray, ¬ WellFormedTag t := by
        push_neg at hwf
        exact hwf
      obtain ⟨err, herr⟩ := fetchTagsLoop_bad _ hbad ""
      simp [fetchTags, herr]
  · rintro ⟨hne, hwf⟩
    have h := fetchTagsLoop_wellFormed _ hwf
    simp only [fetchTags, h]
    cases hl : (query.Model.Get "tags").MustArray with
    | nil => exact absurd hl hne
    | cons t rest =>
      simp only [List.map_cons]
      exact intercalate_ne_empty _ _ _ (tagText_ne_empty t)

/-! ## Claims on the request body -/

/-- C8: for every query `fetchIds` returns the list whose single element is
the model's target string, the empty string when the target is absent or not
a string; for target "metric-1" the id list is ["metric-1"]. -/
theorem fetchIds_singleton_target (query : Query) :
    fetchIds query = [(query.Model.Get "target").MustString] ∧
    (fetchIds query).length = 1 ∧
    (∀ s, query.Model.Get "target" = .str s → fetchIds query = [s]) ∧
    ((∀ s, query.Model.Get "target" ≠ .str s) → fetchIds query = [""]) ∧
    (∀ kvs, query.Model = .obj kvs → lookupKey "target" kvs = none → fetchIds query = [""]) ∧
    fetchIds (idsQuery "A" "metric-1") = ["metric-1"] := by
  refine ⟨rfl, rfl, ?_, ?_, ?_, by decide⟩
  · intro s hs
    simp [fetchIds, hs, Json.MustString, Json.StringOrErr]
  · intro h
    simp [fetchIds, Json.MustString, stringOrErr_of_not_str _ h]
  · intro kvs hk hnone
    simp [fetchIds, hk, get_of_lookupKey_none _ _ hnone, Json.MustString, Json.StringOrErr]

/-- C4: when every tag of the query is an object with string name and value,
`fetchTags` returns without error the tags rendered as name:value and joined
with commas in list order, the empty string for an empty list; the tag list
[heap/used] gives "heap:used". -/
theorem fetchTags_wellFormed (query : Query)
    (hwf : ∀ t ∈ (query.Model.Get "tags").MustArray, WellFormedTag t) :
    fetchTags query =
      (",".intercalate (((query.Model.Get "tags").MustArray).map tagText), none) ∧
    (∀ t ∈ (query.Model.Get "tags").MustArray, ∀ name value,
      t.Get "name" = .str name → t.Get "value" = .str value →
        tagText t = name ++ ":" ++ value) ∧
    ((query.Model.Get "tags").MustArray = [] → fetchTags query = ("", none)) ∧
    fetchTags (tagsQuery "A" [tagObj "heap" "used"]) = ("heap:used", none) := by
  refine ⟨fetchTagsLoop_wellFormed _ hwf, ?_, ?_, by decide⟩
  · intro t _ name value hn hv
    simp [tagText, hn, hv, Json.MustString, Json.StringOrErr]
  · intro hnil
    simp [fetchTags, hnil, fetchTagsLoop]

/-- Witness of C4: two well-formed tags are joined in list order. -/
theorem fetchTags_wellFormed_witness :
    fetchTags (tagsQuery "A" [tagObj "heap" "used", tagObj "area" "eden"]) =
      ("heap:used,area:eden", none) :=
  (fetchTags_wellFormed (tagsQuery "A" [tagObj "heap" "used", tagObj "area" "eden"])
    (by
      intro t ht
      have ht2 : t = tagObj "heap" "used" ∨ t = tagObj "area" "eden" := by
        simpa [tagsQuery, Json.Get, lookupKey, Json.MustArray] using ht
      rcases ht2 with rfl | rfl
      · exact ⟨⟨"heap", rfl⟩, ⟨"used", rfl⟩⟩
      · exact ⟨⟨"area", rfl⟩, ⟨"eden", rfl⟩⟩)).1.trans (by decide)

/-- Counterexample of C2: a query in "tags" mode with an empty tag list gets a
body in which neither the tag filter nor the id list is populated. -/
theorem buildQuery_tags_mode_neither_populated :
    ((tagsQuery "A" []).Model.Get "queryBy").MustString = "tags" ∧
    (buildQuery 1000 2000 (tagsQuery "A" [])).Tags = "" ∧
    (buildQuery 1000 2000 (tagsQuery "A" [])).Ids = [] ∧
    ¬ ExactlyOnePopulated (tagsQuery "A" []) (buildQuery 1000 2000 (tagsQuery "A" [])) := by
  refine ⟨by decide, by decide, by decide, ?_⟩
  unfold ExactlyOnePopulated
  decide

/-- C2 (amended): at most one of the id list and the tag filter is populated.
In "tags" mode the id list is empty and the tag filter is the string of
`fetchTags`, non-empty exactly when the tag list is non-empty and every tag
has a string name and value; otherwise the id list is the one-element list of
the target and the tag filter is empty. -/
theorem buildQuery_selection (fromTime endTime : Int) (query : Query) :
    ((query.Model.Get "queryBy").MustString = "tags" →
      (buildQuery fromTime endTime query).Ids = [] ∧
      (buildQuery fromTime endTime query).Tags = (fetchTags query).1 ∧
      ((buildQuery fromTime endTime query).Tags ≠ "" ↔
        (query.Model.Get "tags").MustArray ≠ [] ∧
          ∀ t ∈ (query.Model.Get "tags").MustArray, WellFormedTag t)) ∧
    ((query.Model.Get "queryBy").MustString ≠ "tags" →
      (buildQuery fromTime endTime query).Ids = [(query.Model.Get "target").MustString] ∧
      (buildQuery fromTime endTime query).Ids ≠ [] ∧
      (buildQuery fromTime endTime query).Tags = "") ∧
    ¬ ((buildQuery fromTime endTime query).Ids ≠ [] ∧
        (buildQuery fromTime endTime query).Tags ≠ "") ∧
    (buildQuery fromTime endTime query).Start = fromTime ∧
    (buildQuery fromTime endTime query).End = endTime ∧
    (buildQuery fromTime endTime query).Order = "ASC" := by
  by_cases hmode : (query.Model.Get "queryBy").MustString = "tags"
  · have hb : buildQuery fromTime endTime query =
        { Start := fromTime, End := endTime, Order := "ASC", Ids := [],
          Tags := (fetchTags query).1 } := by
      simp [buildQuery, hmode, HawkularTsdbQuery.zero]
    rw [hb]
    refine ⟨fun _ => ⟨rfl, rfl, fetchTags_fst_ne_empty_iff query⟩, fun h => absurd hmode h,
      ?_, rfl, rfl, rfl⟩
    simp
  · have hb : buildQuery fromTime endTime query =
        { Start := fromTime, End := endTime, Order := "ASC", Ids := fetchIds query,
          Tags := "" } := by
      simp [buildQuery, hmode, HawkularTsdbQuery.zero]
    rw [hb]
    refine ⟨fun h => absurd h hmode, fun _ => ⟨rfl, ?_, rfl⟩, ?_, rfl, rfl, rfl⟩
    · simp [fetchIds]
    · simp

/-- Witness of C2 (amended): the two selection modes on sample queries. -/
theorem buildQuery_selection_witness :
    buildQuery 1000 2000 (tagsQuery "A" [tagObj "heap" "used"]) =
      { Start := 1000, End := 2000, Order := "ASC", Ids := [], Tags := "heap:used" } ∧
    buildQuery 1000 2000 (idsQuery "A" "metric-1") =
      { Start := 1000, End := 2000, Order := "ASC", Ids := ["metric-1"], Tags := "" } ∧
    ¬ ((buildQuery 1000 2000 (idsQuery "A" "metric-1")).Ids ≠ [] ∧
        (buildQuery 1000 2000 (idsQuery "A" "metric-1")).Tags ≠ "") :=
  ⟨by decide, by decide,
    (buildQuery_selection 1000 2000 (idsQuery "A" "metric-1")).2.2.1⟩

/-! ## Lemmas on response parsing -/

lemma tdiv_hundred_eq_two_iff (c : Int) : c.tdiv 100 = 2 ↔ 200 ≤ c ∧ c ≤ 299 := by
  rcases le_or_lt 0 c with h | h
  · rw [Int.tdiv_eq_ediv h (by decide)]
    omega
  · have h1 : c.tdiv 100 = -((-c).tdiv 100) := by
      rw [Int.neg_tdiv, neg_neg]
    have h2 : (-c).tdiv 100 = (-c) / 100 := Int.tdiv_eq_ediv (by omega) (by decide)
    rw [h1, h2]
    omega

lemma pointsLoop_none (points : List Point) :
    ∀ acc : List TimePoint, pointsLoop none points acc = .ok (acc ++ points.map toTimePoint) := by
  induction points with
  | nil => intro acc; simp [pointsLoop]
  | cons p rest ih =>
    intro acc
    simp only [pointsLoop, ih, List.map_cons]
    simp [NewTimePoint, NullFloat.FloatFrom, toTimePoint]

lemma seriesLoop_none (data : List Series) :
    ∀ queryRes : QueryResult, seriesLoop none data queryRes =
      .ok { queryRes with Series := queryRes.Series ++ data.map toTimeSeries } := by
  induction data with
  | nil => intro queryRes; simp [seriesLoop]
  | cons val rest ih =>
    intro queryRes
    simp only [seriesLoop, pointsLoop_none, ih, List.map_cons, List.nil_append]
    simp [toTimeSeries]

/-- The three ways `parseResponse` returns on a readable body. -/
lemma parseResponse_ok_body (env : Env) (query : HawkularTsdbQuery) (res : Response)
    (body : String) (hbody : res.Body = .ok body) :
    parseResponse env query res =
      if res.StatusCode.tdiv 100 ≠ 2 then
        (none, some (.errorf ("Request failed status: " ++ res.Status)))
      else
        match env.jsonUnmarshal body with
        | .error msg => (none, some (.external msg))
        | .ok data =>
          (some [("A", { Error := none, RefId := "", Series := data.map toTimeSeries })], none) := by
  simp only [parseResponse, hbody]
  split
  · rfl
  · cases env.jsonUnmarshal body with
    | error msg => rfl
    | ok data =>
      simp only [seriesLoop_none]
      simp [ResultMap.set, NewQueryResult]

lemma parseResponse_error_body (env : Env) (query : HawkularTsdbQuery) (res : Response)
    (msg : String) (hbody : res.Body = .error msg) :
    parseResponse env query res = (none, some (.external msg)) := by
  simp [parseResponse, hbody]

/-- Either `parseResponse` returns an error and no map, or no error and a map
with the single key "A". -/
lemma parseResponse_shape (env : Env) (query : HawkularTsdbQuery) (res : Response) :
    (∃ err, parseResponse env query res = (none, some err)) ∨
    (∃ queryRes, parseResponse env query res = (some [("A", queryRes)], none)) := by
  cases hb : res.Body with
  | error msg => exact Or.inl ⟨_, parseResponse_error_body env query res msg hb⟩
  | ok body =>
    rw [parseResponse_ok_body env query res body hb]
    split
    · exact Or.inl ⟨_, rfl⟩
    · cases env.jsonUnmarshal body with
      | error msg => exact Or.inl ⟨_, rfl⟩
      | ok data => exact Or.inr ⟨_, rfl⟩

/-! ## Lemmas on request construction and the loop -/

lemma createRequest_of_urlParse_error (env : Env) (e : HawkularDBExecutor)
    (data : HawkularTsdbQuery) (qType msg : String)
    (h : env.urlParse e.DataSource.Url = .error msg) :
    createRequest env e data qType = .panicked := by
  simp [createRequest, h]

/-- A request that `createRequest` returns is a POST whose body is the
serialized request body, or empty when serialization failed. -/
lemma createRequest_body (env : Env) (e : HawkularDBExecutor) (data : HawkularTsdbQuery)
    (qType : String) (req : Request)
    (h : createRequest env e data qType = .returned (some req, none)) :
    req.Method = "POST" ∧
    req.Body = (match env.jsonMarshal data with
      | .ok bytes => bytes
      | .error _ => "") := by
  unfold createRequest at h
  cases hu : env.urlParse e.DataSource.Url with
  | error msg => simp [hu] at h
  | ok u =>
    simp only [hu, Env.NewRequest] at h
    cases hn : env.newRequestErr "POST"
        (env.urlString { u with Path := env.pathJoin u.Path ("/" ++ qType ++ "s/raw/query") }) with
    | some msg => simp [hn] at h
    | none =>
      simp only [hn, Outcome.returned.injEq, Prod.mk.injEq, Option.some.injEq, and_true] at h
      subst h
      by_cases hb : e.DataSource.BasicAuth = true
      · simp [hb, Env.SetBasicAuth, Request.HeaderSet]
      · simp [hb, Request.HeaderSet]

lemma executeQuery_of_succeeds (env : Env) (e : HawkularDBExecutor) (fromTime endTime : Int)
    (result : BatchResult) (sent : List Request) (query : Query) (req : Request)
    (res : Response) (m : Option ResultMap)
    (h : QuerySucceeds env e fromTime endTime sent query req res m) :
    executeQuery env e fromTime endTime result sent query =
      .next { result with QueryResults := m } (sent ++ [req]) := by
  obtain ⟨h1, h2, h3⟩ := h
  simp [executeQuery, h1, h2, h3]

lemma executeQuery_of_fails (env : Env) (e : HawkularDBExecutor) (fromTime endTime : Int)
    (result : BatchResult) (sent : List Request) (query : Query) (err : Error)
    (h : QueryFails env e fromTime endTime sent query err) :
    ∃ sent2, executeQuery env e fromTime endTime result sent query =
      .stop (.returned { result with Error := some err }) sent2 := by
  rcases h with ⟨r, h1⟩ | ⟨req, h1, ⟨msg, h2, rfl⟩ | ⟨res, m, h2, h3⟩⟩
  · exact ⟨sent, by simp [executeQuery, h1]⟩
  · exact ⟨sent ++ [req], by simp [executeQuery, h1, h2]⟩
  · exact ⟨sent ++ [req], by simp [executeQuery, h1, h2, h3, BatchResult.WithError]⟩

/-- The successful results of `parseResponse` hold the single key "A". -/
lemma querySucceeds_map (env : Env) (e : HawkularDBExecutor) (fromTime endTime : Int)
    (sent : List Request) (query : Query) (req : Request) (res : Response)
    (m : Option ResultMap) (h : QuerySucceeds env e fromTime endTime sent query req res m) :
    ∃ queryRes, m = some [("A", queryRes)] := by
  obtain ⟨_, _, h3⟩ := h
  rcases parseResponse_shape env (buildQuery fromTime endTime query) res with ⟨err, h4⟩ | ⟨qr, h4⟩
  · rw [h4] at h3; simp at h3
  · rw [h4] at h3
    exact ⟨qr, by simpa using h3.symm⟩

/-- A prefix of succeeding queries is run through: the loop reaches the rest
of the batch with the error untouched and, when the prefix is non-empty, the
map of its last query as query results. -/
lemma executeLoop_append (env : Env) (e : HawkularDBExecutor) (fromTime endTime : Int)
    (pre rest : List Query) :
    ∀ (r0 : BatchResult) (sent0 : List Request),
      AllSucceed env e fromTime endTime (pre ++ rest) sent0 →
      ∃ r1 sent1,
        (∀ tail, executeLoop env e fromTime endTime (pre ++ tail) r0 sent0 =
          executeLoop env e fromTime endTime tail r1 sent1) ∧
        AllSucceed env e fromTime endTime rest sent1 ∧
        r1.Error = r0.Error ∧
        sent1.length = sent0.length + pre.length ∧
        (pre = [] → r1 = r0 ∧ sent1 = sent0) ∧
        (pre ≠ [] → ∃ queryRes, r1.QueryResults = some [("A", queryRes)]) := by
  induction pre with
  | nil =>
    intro r0 sent0 h
    exact ⟨r0, sent0, fun _ => rfl, h, rfl, by simp, fun _ => ⟨rfl, rfl⟩, fun h => absurd rfl h⟩
  | cons q qs ih =>
    intro r0 sent0 h
    obtain ⟨req, res, m, hq, hrest⟩ := h
    obtain ⟨qr, hm⟩ := querySucceeds_map env e fromTime endTime sent0 q req res m hq
    have hstep := executeQuery_of_succeeds env e fromTime endTime r0 sent0 q req res m hq
    obtain ⟨r1, sent1, hloop, hall, herr, hlen, hnil, hcons⟩ :=
      ih { r0 with QueryResults := m } (sent0 ++ [req]) hrest
    refine ⟨r1, sent1, ?_, hall, herr, ?_, fun h => absurd h (by simp), fun _ => ?_⟩
    · intro tail
      simp only [List.cons_append, executeLoop, hstep]
      exact hloop tail
    · simp only [List.length_append, List.length_cons, List.length_nil] at hlen ⊢
      omega
    · by_cases hqs : qs = []
      · obtain ⟨h1, _⟩ := hnil hqs
        exact ⟨qr, by rw [h1]; exact hm⟩
      · exact hcons hqs

/-- Every way an iteration of the loop ends. -/
lemma executeQuery_cases (env : Env) (e : HawkularDBExecutor) (fromTime endTime : Int)
    (result : BatchResult) (sent : List Request) (query : Query) :
    (∃ sent2, executeQuery env e fromTime endTime result sent query = .stop .panicked sent2) ∨
    (∃ err sent2, executeQuery env e fromTime endTime result sent query =
      .stop (.returned { result with Error := some err }) sent2) ∨
    (∃ queryRes sent2, executeQuery env e fromTime endTime result sent query =
      .next { result with QueryResults := some [("A", queryRes)] } sent2) := by
  cases hc : createRequest env e (buildQuery fromTime endTime query)
      (query.Model.Get "type").MustString with
  | panicked => exact Or.inl ⟨sent, by simp [executeQuery, hc]⟩
  | returned pair =>
    obtain ⟨r, oerr⟩ := pair
    cases oerr with
    | some err => exact Or.inr (Or.inl ⟨err, sent, by simp [executeQuery, hc]⟩)
    | none =>
      cases r with
      | none => exact Or.inl ⟨sent, by simp [executeQuery, hc]⟩
      | some req =>
        cases hd : env.httpDo sent req with
        | error msg =>
          exact Or.inr (Or.inl ⟨.external msg, sent ++ [req], by simp [executeQuery, hc, hd]⟩)
        | ok res =>
          rcases parseResponse_shape env (buildQuery fromTime endTime query) res with
            ⟨err, hp⟩ | ⟨qr, hp⟩
          · exact Or.inr (Or.inl ⟨err, sent ++ [req],
              by simp [executeQuery, hc, hd, hp, BatchResult.WithError]⟩)
          · exact Or.inr (Or.inr ⟨qr, sent ++ [req], by simp [executeQuery, hc, hd, hp]⟩)

lemma executeLoop_fixedKey (env : Env) (e : HawkularDBExecutor) (fromTime endTime : Int)
    (queries : List Query) :
    ∀ (r0 : BatchResult) (sent0 : List Request) (br : BatchResult) (sent : List Request),
      FixedKey r0 →
      executeLoop env e fromTime endTime queries r0 sent0 = (.returned br, sent) →
      FixedKey br := by
  induction queries with
  | nil =>
    intro r0 sent0 br sent h0 h
    simp only [executeLoop, Prod.mk.injEq, Outcome.returned.injEq] at h
    rw [← h.1]; exact h0
  | cons q qs ih =>
    intro r0 sent0 br sent h0 h
    rcases executeQuery_cases env e fromTime endTime r0 sent0 q with
      ⟨s2, hs⟩ | ⟨err, s2, hs⟩ | ⟨qr, s2, hs⟩
    · simp [executeLoop, hs] at h
    · simp only [executeLoop, hs, Prod.mk.injEq, Outcome.returned.injEq] at h
      rw [← h.1]; exact h0
    · simp only [executeLoop, hs] at h
      exact ih _ _ br sent (Or.inr ⟨qr, rfl⟩) h

/-- A batch of succeeding queries ending in `last` is run to its end: the loop
returns the result so far with, as query results, the map parsed from the
response to `last`. -/
lemma executeLoop_last (env : Env) (e : HawkularDBExecutor) (fromTime endTime : Int)
    (init : List Query) (last : Query) (r0 : BatchResult) (sent0 : List Request)
    (hall : AllSucceed env e fromTime endTime (init ++ [last]) sent0) :
    ∃ sent req res m,
      sent.length = sent0.length + init.length ∧
      QuerySucceeds env e fromTime endTime sent last req res (some m) ∧
      executeLoop env e fromTime endTime (init ++ [last]) r0 sent0 =
        (.returned { Error := r0.Error, QueryResults := some m }, sent ++ [req]) := by
  obtain ⟨r1, sent1, hloop, hrest, herr, hlen, _, _⟩ :=
    executeLoop_append env e fromTime endTime init [last] r0 sent0 hall
  obtain ⟨req, res, m, hq, _⟩ := hrest
  obtain ⟨qr, hm⟩ := querySucceeds_map _ _ _ _ _ _ _ _ _ hq
  subst hm
  refine ⟨sent1, req, res, [("A", qr)], hlen, hq, ?_⟩
  have hstep := executeQuery_of_succeeds env e fromTime endTime r1 sent1 last req res _ hq
  simp only [hloop [last], executeLoop, hstep, herr]

lemma createRequest_of_marshal_error (env : Env) (e : HawkularDBExecutor)
    (data : HawkularTsdbQuery) (qType msg : String) (u : URL)
    (hu : env.urlParse e.DataSource.Url = .ok u)
    (hm : env.jsonMarshal data = .error msg)
    (hn : env.newRequestErr "POST"
      (env.urlString { u with Path := env.pathJoin u.Path ("/" ++ qType ++ "s/raw/query") })
        = none) :
    ∃ req, createRequest env e data qType = .returned (some req, none) ∧ req.Body = "" := by
  obtain ⟨req, hreq⟩ : ∃ req, createRequest env e data qType = .returned (some req, none) := by
    simp only [createRequest, hu, hm, Env.NewRequest, hn]
    exact ⟨_, rfl⟩
  have hbody := (createRequest_body env e data qType req hreq).2
  rw [hm] at hbody
  exact ⟨req, hreq, hbody⟩

lemma Execute_of_urlParse_error (env : Env) (e : HawkularDBExecutor) (query : Query)
    (rest : List Query) (context : QueryContext) (msg : String)
    (h : env.urlParse e.DataSource.Url = .error msg) :
    Execute env e (query :: rest) context = (.panicked, []) := by
  simp [Execute, executeLoop, executeQuery, createRequest_of_urlParse_error env e _ _ msg h]

/-! ## Claims on response parsing -/

/-- C5: on a readable body with a 2xx status that decodes to `data`,
`parseResponse` returns one result whose series are the decoded series in the
same number and order, each named by the series id and holding the points in
order, every point with the value as a valid nullable float and the timestamp;
the sample response gives one series m1 with the single point (2.5, 1000). -/
theorem parseResponse_series (env : Env) (query : HawkularTsdbQuery) (res : Response)
    (body : String) (data : List Series)
    (hbody : res.Body = .ok body)
    (hstatus : 200 ≤ res.StatusCode ∧ res.StatusCode ≤ 299)
    (hdata : env.jsonUnmarshal body = .ok data) :
    parseResponse env query res =
      (some [("A", { Error := none, RefId := "", Series := data.map toTimeSeries })], none) ∧
    (data.map toTimeSeries).length = data.length ∧
    (∀ i : Nat, (data.map toTimeSeries)[i]? = data[i]?.map toTimeSeries) ∧
    (∀ val : Series, (toTimeSeries val).Name = val.Id ∧
      (toTimeSeries val).Points.length = val.Points.length ∧
      ∀ j : Nat, (toTimeSeries val).Points[j]? = val.Points[j]?.map toTimePoint) ∧
    (∀ point : Point,
      (toTimePoint point).value = { Float64 := point.Value, Valid := true } ∧
      (toTimePoint point).timestamp = { Float64 := point.Time, Valid := true }) := by
  refine ⟨?_, by simp, fun i => by simp, fun val => ⟨rfl, by simp [toTimeSeries], fun j => ?_⟩,
    fun point => ⟨rfl, rfl⟩⟩
  · rw [parseResponse_ok_body env query res body hbody]
    have h2 : res.StatusCode.tdiv 100 = 2 := (tdiv_hundred_eq_two_iff _).mpr hstatus
    simp [h2, hdata]
  · simp [toTimeSeries]

/-- Witness of C5: the sample response parses to one series m1 with the single
point (2.5, 1000). -/
theorem parseResponse_series_witness :
    parseResponse (scriptedEnv []) (buildQuery 1000 2000 (idsQuery "A" "m1")) okResponse =
      (some [("A",
        { Error := none
          RefId := ""
          Series :=
            [{ Name := "m1"
               Points :=
                [{ value := { Float64 := 2.5, Valid := true }
                   timestamp := { Float64 := 1000, Valid := true } }] }] })], none) :=
  (parseResponse_series (scriptedEnv []) (buildQuery 1000 2000 (idsQuery "A" "m1")) okResponse
    sampleBody [{ Id := "m1", Points := [{ Time := 1000, Value := 2.5 }] }]
    rfl (by decide) rfl).1

/-- C6: on a readable body `parseResponse` returns the request-failure error
and no result map exactly when the status code divided by 100 is not 2, that
is when it lies outside 200..299, whatever the body; a single-query batch
answered with such a status makes `Execute` return that error and no result
map. -/
theorem parseResponse_status_check (env : Env) (query : HawkularTsdbQuery) (res : Response)
    (body : String) (hbody : res.Body = .ok body) :
    (parseResponse env query res =
        (none, some (.errorf ("Request failed status: " ++ res.Status))) ↔
      res.StatusCode.tdiv 100 ≠ 2) ∧
    (res.StatusCode.tdiv 100 ≠ 2 ↔ ¬ (200 ≤ res.StatusCode ∧ res.StatusCode ≤ 299)) ∧
    (∀ (e : HawkularDBExecutor) (q : Query) (context : QueryContext) (req : Request),
      createRequest env e (buildQuery context.FromAsMsEpoch context.ToAsMsEpoch q)
          (q.Model.Get "type").MustString = .returned (some req, none) →
      env.httpDo [] req = .ok res →
      res.StatusCode.tdiv 100 ≠ 2 →
      Execute env e [q] context =
        (.returned { Error := some (.errorf ("Request failed status: " ++ res.Status)),
                     QueryResults := none }, [req])) := by
  have hparse := parseResponse_ok_body env query res body hbody
  refine ⟨⟨?_, ?_⟩, ?_, ?_⟩
  · intro h hs
    rw [hparse] at h
    rw [if_neg (not_not.mpr hs)] at h
    cases hj : env.jsonUnmarshal body with
    | error msg => simp [hj] at h
    | ok data => simp [hj] at h
  · intro hne
    rw [hparse, if_pos hne]
  · rw [not_iff_not]
    exact tdiv_hundred_eq_two_iff _
  · intro e q context req hreq hdo hne
    have hp := parseResponse_ok_body env
      (buildQuery context.FromAsMsEpoch context.ToAsMsEpoch q) res body hbody
    rw [if_pos hne] at hp
    simp [Execute, executeLoop, executeQuery, hreq, hdo, hp, BatchResult.WithError]

/-- Witness of C6: a 500 response parses to the request-failure error, and the
single-query batch answered with it returns that error and no result map. -/
theorem parseResponse_status_check_witness :
    parseResponse (scriptedEnv [.ok failedResponse])
        (buildQuery 1000 2000 (idsQuery "A" "metric-1")) failedResponse =
      (none, some (.errorf "Request failed status: 500 Internal Server Error")) ∧
    (Execute (scriptedEnv [.ok failedResponse]) (sampleExecutor "http://h")
        [idsQuery "A" "metric-1"] sampleContext).1 =
      .returned { Error := some (.errorf "Request failed status: 500 Internal Server Error"),
                  QueryResults := none } :=
  ⟨(parseResponse_status_check (scriptedEnv [.ok failedResponse])
      (buildQuery 1000 2000 (idsQuery "A" "metric-1")) failedResponse "boom" rfl).1.mpr
      (by decide),
   by decide⟩

/-! ## Claims on the batch loop -/

/-- Counterexample of C3: the result of a query with reference id "B" is
returned under the key "A"; the map has nothing under "B". -/
theorem Execute_result_not_under_refId :
    (idsQuery "B" "metric-1").RefId = "B" ∧
    (Execute (scriptedEnv [.ok okResponse]) (sampleExecutor "http://h")
        [idsQuery "B" "metric-1"] sampleContext).1 =
      .returned { Error := none, QueryResults := some [("A", sampleResult)] } ∧
    ResultMap.get? [("A", sampleResult)] "B" = none ∧
    ResultMap.get? [("A", sampleResult)] "A" = some sampleResult :=
  ⟨rfl, rfl, rfl, rfl⟩

/-- C3 (amended): every result map `parseResponse` or `Execute` returns holds
one entry, under the fixed key "A" whatever the reference id of the query; a
query with reference id r finds its series under key r only when r is "A". A
batch whose queries all succeed returns such a map. -/
theorem Execute_results_under_fixed_key (env : Env) (e : HawkularDBExecutor)
    (context : QueryContext) :
    (∀ (query : HawkularTsdbQuery) (res : Response) (m : ResultMap),
      parseResponse env query res = (some m, none) → ∃ queryRes, m = [("A", queryRes)]) ∧
    (∀ (queries : List Query) (br : BatchResult) (sent : List Request) (m : ResultMap),
      Execute env e queries context = (.returned br, sent) →
      br.QueryResults = some m →
      ∃ queryRes, m = [("A", queryRes)] ∧ m.get? "A" = some queryRes ∧
        ∀ refId, refId ≠ "A" → m.get? refId = none) ∧
    (∀ (pre : List Query) (last : Query),
      AllSucceed env e context.FromAsMsEpoch context.ToAsMsEpoch (pre ++ [last]) [] →
      ∃ queryRes sent, Execute env e (pre ++ [last]) context =
        (.returned { Error := none, QueryResults := some [("A", queryRes)] }, sent)) := by
  refine ⟨?_, ?_, ?_⟩
  · intro query res m h
    rcases parseResponse_shape env query res with ⟨err, h2⟩ | ⟨qr, h2⟩
    · rw [h2] at h; simp at h
    · rw [h2] at h
      exact ⟨qr, by simpa using h.symm⟩
  · intro queries br sent m h hm
    have hfix := executeLoop_fixedKey env e context.FromAsMsEpoch context.ToAsMsEpoch queries
      { Error := none, QueryResults := none } [] br sent (Or.inl rfl) h
    rcases hfix with hnone | ⟨qr, hqr⟩
    · rw [hnone] at hm; simp at hm
    · rw [hqr] at hm
      have hm2 : m = [("A", qr)] := by simpa using hm.symm
      subst hm2
      refine ⟨qr, rfl, by simp [ResultMap.get?, List.lookup], ?_⟩
      intro refId hne
      have hbeq : (refId == "A") = false := by simpa using hne
      simp [ResultMap.get?, List.lookup, hbeq]
  · intro pre last hall
    obtain ⟨r1, sent1, hloop, _, herr, _, _, hcons⟩ :=
      executeLoop_append env e context.FromAsMsEpoch context.ToAsMsEpoch (pre ++ [last]) []
        { Error := none, QueryResults := none } [] (by simpa using hall)
    obtain ⟨qr, hqr⟩ := hcons (by simp)
    refine ⟨qr, sent1, ?_⟩
    have h := hloop []
    simp only [List.append_nil, executeLoop] at h
    simp only [Execute, h]
    cases r1
    simp_all

/-- Witness of C3 (amended): the map returned for the query with reference id
"B" has its only entry under "A". -/
theorem Execute_results_under_fixed_key_witness :
    ∃ queryRes, [("A", sampleResult)] = [("A", queryRes)] ∧
      ResultMap.get? [("A", sampleResult)] "A" = some queryRes ∧
      ∀ refId, refId ≠ "A" → ResultMap.get? [("A", sampleResult)] refId = none :=
  (Execute_results_under_fixed_key (scriptedEnv [.ok okResponse]) (sampleExecutor "http://h")
    sampleContext).2.1 [idsQuery "B" "metric-1"]
    { Error := none, QueryResults := some [("A", sampleResult)] }
    [{ Method := "POST", URL := "http://h/gauges/raw/query", Body := "ids=metric-1;tags=",
       Header := [("Content-Type", "application/json"), ("Hawkular-Tenant", "t1")] }]
    [("A", sampleResult)] rfl rfl

/-- C9: for a non-empty batch whose queries all succeed, `Execute` returns
without error and its query results are the map parsed from the response to
the last query alone, whatever the earlier queries returned. -/
theorem Execute_keeps_only_last (env : Env) (e : HawkularDBExecutor) (context : QueryContext)
    (pre : List Query) (last : Query)
    (hall : AllSucceed env e context.FromAsMsEpoch context.ToAsMsEpoch (pre ++ [last]) []) :
    ∃ sent req res m,
      sent.length = pre.length ∧
      QuerySucceeds env e context.FromAsMsEpoch context.ToAsMsEpoch sent last req res (some m) ∧
      Execute env e (pre ++ [last]) context =
        (.returned { Error := none, QueryResults := some m }, sent ++ [req]) := by
  obtain ⟨r1, sent1, hloop, hrest, herr, hlen, _, _⟩ :=
    executeLoop_append env e context.FromAsMsEpoch context.ToAsMsEpoch pre [last]
      { Error := none, QueryResults := none } [] hall
  obtain ⟨req, res, m, hq, _⟩ := hrest
  obtain ⟨qr, hm⟩ := querySucceeds_map _ _ _ _ _ _ _ _ _ hq
  subst hm
  refine ⟨sent1, req, res, [("A", qr)], by simpa using hlen, hq, ?_⟩
  have hstep := executeQuery_of_succeeds env e context.FromAsMsEpoch context.ToAsMsEpoch
    r1 sent1 last req res _ hq
  simp only [Execute, hloop [last], executeLoop, hstep]
  cases r1
  simp_all

/-- Witness of C9: of a tags query answered with the series m1 and an ids query
answered with no series, only the empty result of the second is returned. -/
theorem Execute_keeps_only_last_witness :
    (∃ sent req res m,
      sent.length = [tagsQuery "A" [tagObj "heap" "used"]].length ∧
      QuerySucceeds (scriptedEnv [.ok okResponse, .ok emptyResponse]) (sampleExecutor "http://h")
        sampleContext.FromAsMsEpoch sampleContext.ToAsMsEpoch sent
        (idsQuery "B" "metric-1") req res (some m) ∧
      Execute (scriptedEnv [.ok okResponse, .ok emptyResponse]) (sampleExecutor "http://h")
          ([tagsQuery "A" [tagObj "heap" "used"]] ++ [idsQuery "B" "metric-1"]) sampleContext =
        (.returned { Error := none, QueryResults := some m }, sent ++ [req])) ∧
    (Execute (scriptedEnv [.ok okResponse, .ok emptyResponse]) (sampleExecutor "http://h")
        [tagsQuery "A" [tagObj "heap" "used"], idsQuery "B" "metric-1"] sampleContext).1 =
      .returned { Error := none,
                  QueryResults := some [("A", { Error := none, RefId := "", Series := [] })] } ∧
    (Execute (scriptedEnv [.ok okResponse]) (sampleExecutor "http://h")
        [tagsQuery "A" [tagObj "heap" "used"]] sampleContext).1 =
      .returned { Error := none, QueryResults := some [("A", sampleResult)] } :=
  ⟨Execute_keeps_only_last (scriptedEnv [.ok okResponse, .ok emptyResponse])
      (sampleExecutor "http://h") sampleContext [tagsQuery "A" [tagObj "heap" "used"]]
      (idsQuery "B" "metric-1")
      ⟨_, okResponse, _, ⟨rfl, rfl, rfl⟩, _, emptyResponse, _, ⟨rfl, rfl, rfl⟩, trivial⟩,
   rfl, rfl⟩

/-- Counterexample of C1: the second query of a batch fails in the transport
after the first succeeded; the batch result carries the error together with
the query results of the first query. -/
theorem Execute_error_keeps_earlier_results :
    (Execute (scriptedEnv [.ok okResponse, .error "timeout"]) (sampleExecutor "http://h")
        [idsQuery "A" "metric-1", idsQuery "B" "metric-2"] sampleContext).1 =
      .returned { Error := some (.external "timeout"),
                  QueryResults := some [("A", sampleResult)] } :=
  rfl

/-- C1 (amended): when the queries before a failing query all succeed, and the
failing query fails with an error in request construction, transport, status
or decoding, `Execute` returns a batch result that carries this error; its
query results are those the batch of the preceding queries alone returns: nil
when the failing query is first, otherwise the map parsed from the response to
the query just before the failing one. -/
theorem Execute_failure_keeps_previous (env : Env) (e : HawkularDBExecutor)
    (context : QueryContext) (pre : List Query) (query : Query) (post : List Query)
    (err : Error)
    (hpre : AllSucceed env e context.FromAsMsEpoch context.ToAsMsEpoch pre [])
    (hfail : QueryFails env e context.FromAsMsEpoch context.ToAsMsEpoch
      (Execute env e pre context).2 query err) :
    ∃ r, (Execute env e pre context).1 = .returned r ∧ r.Error = none ∧
      (Execute env e (pre ++ query :: post) context).1 =
        .returned { Error := some err, QueryResults := r.QueryResults } ∧
      (pre = [] → r.QueryResults = none) ∧
      (pre ≠ [] → ∃ queryRes, r.QueryResults = some [("A", queryRes)]) ∧
      (∀ (init : List Query) (last : Query), pre = init ++ [last] →
        ∃ sent req res m,
          sent.length = init.length ∧
          QuerySucceeds env e context.FromAsMsEpoch context.ToAsMsEpoch sent last req res
            (some m) ∧
          r.QueryResults = some m ∧
          (Execute env e (pre ++ query :: post) context).1 =
            .returned { Error := some err, QueryResults := some m }) := by
  obtain ⟨r1, sent1, hloop, _, herr, _, hnil, hcons⟩ :=
    executeLoop_append env e context.FromAsMsEpoch context.ToAsMsEpoch pre []
      { Error := none, QueryResults := none } [] (by simpa using hpre)
  have hrun : Execute env e pre context = (.returned r1, sent1) := by
    have h := hloop []
    simpa [Execute, executeLoop] using h
  rw [hrun] at hfail
  obtain ⟨sent2, hstep⟩ := executeQuery_of_fails env e context.FromAsMsEpoch
    context.ToAsMsEpoch r1 sent1 query err hfail
  have hres : (Execute env e (pre ++ query :: post) context).1 =
      .returned { Error := some err, QueryResults := r1.QueryResults } := by
    simp only [Execute, hloop (query :: post), executeLoop, hstep]
  refine ⟨r1, by rw [hrun], herr, hres, fun h => by rw [(hnil h).1], hcons, ?_⟩
  intro init last hsplit
  subst hsplit
  obtain ⟨sent, req, res, m, hlen, hq, hlast⟩ :=
    executeLoop_last env e context.FromAsMsEpoch context.ToAsMsEpoch init last
      { Error := none, QueryResults := none } [] hpre
  have hr1 : r1 = { Error := none, QueryResults := some m } := by
    have h := hrun
    simp only [Execute] at h
    rw [hlast] at h
    simp only [Prod.mk.injEq, Outcome.returned.injEq] at h
    exact h.1.symm
  refine ⟨sent, req, res, m, by simpa using hlen, hq, by rw [hr1], ?_⟩
  rw [hres, hr1]

/-- Witness of C1 (amended): the failing second query of the counterexample;
the map kept next to the error is the one parsed from the first response. -/
theorem Execute_failure_keeps_previous_witness :
    (∃ r, (Execute (scriptedEnv [.ok okResponse, .error "timeout"]) (sampleExecutor "http://h")
        [idsQuery "A" "metric-1"] sampleContext).1 = .returned r ∧ r.Error = none ∧
      (Execute (scriptedEnv [.ok okResponse, .error "timeout"]) (sampleExecutor "http://h")
        ([idsQuery "A" "metric-1"] ++ idsQuery "B" "metric-2" :: []) sampleContext).1 =
        .returned { Error := some (.external "timeout"), QueryResults := r.QueryResults } ∧
      ([idsQuery "A" "metric-1"] = [] → r.QueryResults = none) ∧
      ([idsQuery "A" "metric-1"] ≠ [] → ∃ queryRes, r.QueryResults = some [("A", queryRes)]) ∧
      (∀ (init : List Query) (last : Query), [idsQuery "A" "metric-1"] = init ++ [last] →
        ∃ sent req res m,
          sent.length = init.length ∧
          QuerySucceeds (scriptedEnv [.ok okResponse, .error "timeout"])
            (sampleExecutor "http://h") sampleContext.FromAsMsEpoch sampleContext.ToAsMsEpoch
            sent last req res (some m) ∧
          r.QueryResults = some m ∧
          (Execute (scriptedEnv [.ok okResponse, .error "timeout"]) (sampleExecutor "http://h")
            ([idsQuery "A" "metric-1"] ++ idsQuery "B" "metric-2" :: []) sampleContext).1 =
            .returned { Error := some (.external "timeout"), QueryResults := some m })) ∧
    parseResponse (scriptedEnv [.ok okResponse, .error "timeout"])
        (buildQuery 1000 2000 (idsQuery "A" "metric-1")) okResponse =
      (some [("A", sampleResult)], none) ∧
    (Execute (scriptedEnv [.ok okResponse, .error "timeout"]) (sampleExecutor "http://h")
        [idsQuery "A" "metric-1", idsQuery "B" "metric-2"] sampleContext).1 =
      .returned { Error := some (.external "timeout"),
                  QueryResults := some [("A", sampleResult)] } :=
  ⟨Execute_failure_keeps_previous (scriptedEnv [.ok okResponse, .error "timeout"])
      (sampleExecutor "http://h") sampleContext [idsQuery "A" "metric-1"]
      (idsQuery "B" "metric-2") [] (.external "timeout")
      ⟨_, okResponse, _, ⟨rfl, rfl, rfl⟩, trivial⟩
      (Or.inr ⟨_, rfl, Or.inl ⟨"timeout", rfl, rfl⟩⟩),
   rfl, rfl⟩

/-- C7: evaluation at the failing inputs.  With the base URL ":" that
`url.Parse` refuses, `createRequest` dereferences the nil URL and panics, and
so does `Execute`: no error and no batch result are returned.  With a failing
serializer `createRequest` returns a request with an empty body and no error,
and `Execute` performs the HTTP call. -/
theorem createRequest_construction_failures :
    (scriptedEnv []).urlParse (sampleExecutor ":").DataSource.Url =
      .error "missing protocol scheme" ∧
    createRequest (scriptedEnv []) (sampleExecutor ":")
      (buildQuery 1000 2000 (idsQuery "A" "metric-1")) "gauge" = .panicked ∧
    Execute (scriptedEnv []) (sampleExecutor ":") [idsQuery "A" "metric-1"] sampleContext =
      (.panicked, []) ∧
    (failingMarshalEnv [.ok emptyResponse]).jsonMarshal
      (buildQuery 1000 2000 (idsQuery "A" "metric-1")) = .error "unsupported value" ∧
    createRequest (failingMarshalEnv [.ok emptyResponse]) (sampleExecutor "http://h")
      (buildQuery 1000 2000 (idsQuery "A" "metric-1")) "gauge" =
      .returned (some
        { Method := "POST", URL := "http://h/gauges/raw/query", Body := "",
          Header := [("Content-Type", "application/json"), ("Hawkular-Tenant", "t1")] }, none) ∧
    Execute (failingMarshalEnv [.ok emptyResponse]) (sampleExecutor "http://h")
        [idsQuery "A" "metric-1"] sampleContext =
      (.returned { Error := none,
                   QueryResults := some [("A", { Error := none, RefId := "", Series := [] })] },
       [{ Method := "POST", URL := "http://h/gauges/raw/query", Body := "",
          Header := [("Content-Type", "application/json"), ("Hawkular-Tenant", "t1")] }]) := by
  refine ⟨rfl, ?_, ?_, rfl, ?_, ?_⟩ <;> decide

/-- C10: when a tag of the query lacks a string name or a string value,
`fetchTags` returns an error with the empty string; `Execute` drops the error:
for a query in "tags" mode the body has an empty tag filter and an empty id
list, the request built from it is sent, and the iteration goes on when the
response parses. -/
theorem fetchTags_error_ignored (env : Env) (e : HawkularDBExecutor) (fromTime endTime : Int)
    (query : Query)
    (hbad : ∃ t ∈ (query.Model.Get "tags").MustArray, ¬ WellFormedTag t) :
    (∃ err, fetchTags query = ("", some err)) ∧
    ((query.Model.Get "queryBy").MustString = "tags" →
      buildQuery fromTime endTime query =
        { Start := fromTime, End := endTime, Order := "ASC", Ids := [], Tags := "" } ∧
      ∀ (result : BatchResult) (sent : List Request) (req : Request),
        createRequest env e
            { Start := fromTime, End := endTime, Order := "ASC", Ids := [], Tags := "" }
            (query.Model.Get "type").MustString = .returned (some req, none) →
          (executeQuery env e fromTime endTime result sent query).sent = sent ++ [req] ∧
          req.Body = (match env.jsonMarshal
              { Start := fromTime, End := endTime, Order := "ASC", Ids := [], Tags := "" } with
            | .ok bytes => bytes
            | .error _ => "") ∧
          ∀ (res : Response) (m : Option ResultMap),
            env.httpDo sent req = .ok res →
            parseResponse env
              { Start := fromTime, End := endTime, Order := "ASC", Ids := [], Tags := "" } res
                = (m, none) →
            executeQuery env e fromTime endTime result sent query =
              .next { result with QueryResults := m } (sent ++ [req])) := by
  obtain ⟨err, herr⟩ := fetchTagsLoop_bad _ hbad ""
  have hft : fetchTags query = ("", some err) := herr
  refine ⟨⟨err, hft⟩, ?_⟩
  intro hmode
  have hb : buildQuery fromTime endTime query =
      { Start := fromTime, End := endTime, Order := "ASC", Ids := [], Tags := "" } := by
    simp [buildQuery, hmode, HawkularTsdbQuery.zero, hft]
  refine ⟨hb, ?_⟩
  intro result sent req hreq
  refine ⟨?_, (createRequest_body env e _ _ req hreq).2, ?_⟩
  · cases hd : env.httpDo sent req with
    | error msg => simp [executeQuery, hb, hreq, hd, Step.sent]
    | ok res =>
      rcases parseResponse_shape env
        { Start := fromTime, End := endTime, Order := "ASC", Ids := [], Tags := "" } res with
        ⟨err2, hp⟩ | ⟨qr, hp⟩
      · simp [executeQuery, hb, hreq, hd, hp, Step.sent]
      · simp [executeQuery, hb, hreq, hd, hp, Step.sent]
  · intro res m hd hp
    exact executeQuery_of_succeeds env e fromTime endTime result sent query req res m
      ⟨by rw [hb]; exact hreq, hd, by rw [hb]; exact hp⟩

/-- Witness of C10: a tags query whose second tag has no value; the tags
rendered before it are dropped and the request goes out with an empty filter
and no ids. -/
theorem fetchTags_error_ignored_witness :
    (∃ err, fetchTags (tagsQuery "A" [tagObj "heap" "used", .obj [("name", .str "area")]]) =
      ("", some err)) ∧
    fetchTags (tagsQuery "A" [tagObj "heap" "used", .obj [("name", .str "area")]]) =
      ("", some (.external "type assertion to string failed")) ∧
    Execute (scriptedEnv [.ok emptyResponse]) (sampleExecutor "http://h")
        [tagsQuery "A" [tagObj "heap" "used", .obj [("name", .str "area")]]] sampleContext =
      (.returned { Error := none,
                   QueryResults := some [("A", { Error := none, RefId := "", Series := [] })] },
       [{ Method := "POST", URL := "http://h/gauges/raw/query", Body := "ids=;tags=",
          Header := [("Content-Type", "application/json"), ("Hawkular-Tenant", "t1")] }]) :=
  ⟨(fetchTags_error_ignored (scriptedEnv [.ok emptyResponse]) (sampleExecutor "http://h")
      1000 2000 (tagsQuery "A" [tagObj "heap" "used", .obj [("name", .str "area")]])
      ⟨.obj [("name", .str "area")],
        by simp [tagsQuery, Json.Get, lookupKey, Json.MustArray],
        by
          rintro ⟨_, ⟨value, hv⟩⟩
          simp [Json.Get, lookupKey] at hv⟩).1,
   by decide, by decide⟩

end Hawkular
